import Mathlib

/-!
Shallow embedding of `src/test_review/bad_cpp.cpp`, a single C++ translation
unit defining one global variable (`global_counter`) and four free functions
(`process_string`, `memory_issue`, `race_condition`, `BAD_FUNCTION_NAME`).

The machine state tracks the single global integer, the heap of allocated
(and never freed) blocks, and a count of writes attempted through a null
pointer.  Each function is embedded as a state transformer that additionally
reports a trace of the memory / local-variable events it performs, so that
out-of-bounds writes, null-pointer stores, uninitialized reads and the
absence of `free` calls are all visible in the model.
-/

/-- A heap block produced by `malloc`: its size in bytes and the list of
`(index, value)` int stores performed into it, in program order.  Cells not
in `written` are uninitialized. -/
structure Block where
  bytes : Nat
  written : List (Nat × Int)
  deriving DecidableEq, Repr

/-- The persistent machine state of the translation unit: the single global
`int global_counter`, the heap of live (allocated, unfreed) blocks, and a
count of stores attempted through a null pointer. -/
structure MachState where
  global_counter : Int
  heap : List Block
  nullWrites : Nat
  deriving DecidableEq, Repr

/-- The initial state: `int global_counter = 0;`, empty heap. -/
def st0 : MachState := { global_counter := 0, heap := [], nullWrites := 0 }

/-- `sizeof(int)` on the (LP64) platform the file targets. -/
def sizeof_int : Nat := 4

/-- `malloc(bytes)`: the oracle `ok` says whether the allocation succeeds.
On success a fresh block (no cell written yet) is appended to the heap and
its index is returned as the pointer; on failure the null pointer (`none`)
is returned and the state is unchanged. -/
def malloc (ok : Bool) (bytes : Nat) (st : MachState) : Option Nat × MachState :=
  if ok then
    (some st.heap.length, { st with heap := st.heap ++ [⟨bytes, []⟩] })
  else
    (none, st)

/-- Record one int store into a block. -/
def storeAt (b : Block) (idx : Nat) (v : Int) : Block :=
  { b with written := b.written ++ [(idx, v)] }

/-- Apply `f` to the block at position `a` of the heap. -/
def updateBlock : List Block → Nat → (Block → Block) → List Block
  | [], _, _ => []
  | b :: bs, 0, f => f b :: bs
  | b :: bs, a + 1, f => b :: updateBlock bs a f

/-- `ptr[idx] = v`: storing through a null pointer is recorded in
`nullWrites`; storing through a valid pointer records the write in the
pointed-to block. -/
def storeInt (p : Option Nat) (idx : Nat) (v : Int) (st : MachState) : MachState :=
  match p with
  | none => { st with nullWrites := st.nullWrites + 1 }
  | some a => { st with heap := updateBlock st.heap a (fun b => storeAt b idx v) }

/-- Events a function body performs on the heap. -/
inductive MemEvent where
  | allocCall (bytes : Nat) (ok : Bool)
  | storeCall (throughNull : Bool) (idx : Nat) (v : Int)
  | freeCall
  deriving DecidableEq, Repr

/-- `void memory_issue()`:
```c
int* ptr = (int*)malloc(100 * sizeof(int));
ptr[0] = 10;
// Missing free(ptr)
```
The store is unconditional — there is no check of the `malloc` result — and
no `free` occurs on any path. -/
def memory_issue (allocOk : Bool) (st : MachState) : MachState × List MemEvent :=
  let (ptr, st1) := malloc allocOk (100 * sizeof_int) st
  let st2 := storeInt ptr 0 10 st1
  (st2, [MemEvent.allocCall (100 * sizeof_int) allocOk,
         MemEvent.storeCall ptr.isNone 0 10])

/-- The NUL terminator byte. -/
def NUL : Char := Char.ofNat 0

/-- The copy loop of `strcpy(dst, src)` starting at destination index `i`:
each byte of `src` is written in turn, then the terminating NUL.  The result
is the list of `(index, byte)` writes into `dst`, in order; no bound on the
destination is consulted. -/
def strcpyFrom : List Char → Nat → List (Nat × Char)
  | [], i => [(i, NUL)]
  | c :: cs, i => (i, c) :: strcpyFrom cs (i + 1)

/-- `strcpy(dst, src)`: all writes into `dst`, beginning at index 0. -/
def strcpy (src : List Char) : List (Nat × Char) :=
  strcpyFrom src 0

/-- `char buffer[10];` — the capacity of `process_string`'s local buffer. -/
def BUFFER_SIZE : Nat := 10

/-- `void process_string(char* input)`:
```c
char buffer[10];
strcpy(buffer, input);
```
`input` is the NUL-terminated argument string (its characters, NUL
excluded).  The buffer is function-local, so the machine state is returned
unchanged; the writes `strcpy` performs into the 10-byte buffer are
reported as the trace. -/
def process_string (input : List Char) (st : MachState) : MachState × List (Nat × Char) :=
  (st, strcpy input)

/-- Events on function-local variables. -/
inductive LocalEvent where
  | assign (name : String) (v : Int)
  | read (name : String) (wasAssigned : Bool)
  | print (msg : String)
  deriving DecidableEq, Repr

/-- `void BAD_FUNCTION_NAME()`:
```c
int timeout = 3600;
int x;
if (x > 0) { printf("Undefined behavior"); }
```
A local `Option Int` is `some` exactly when the C local has been assigned;
`garbage` is the indeterminate value the unassigned `x` happens to hold.
The trace records each assignment and each read (flagged with whether the
variable had been assigned at that point). -/
def BAD_FUNCTION_NAME (garbage : Int) (st : MachState) : MachState × List LocalEvent :=
  let timeout : Option Int := some 3600
  let x : Option Int := none
  let xVal := x.getD garbage
  let branch := if xVal > 0 then [LocalEvent.print "Undefined behavior"] else []
  (st, [LocalEvent.assign "timeout" (timeout.getD 0),
        LocalEvent.read "x" x.isSome] ++ branch)

/-- Primitive accesses a thread can perform on `global_counter`, plus the
synchronization primitives the file never uses. -/
inductive ThreadAction where
  | load
  | store
  | lockAcq
  | lockRel
  | atomicRMW
  deriving DecidableEq, Repr

/-- Whether an action is a synchronization operation. -/
def isSyncAction : ThreadAction → Bool
  | ThreadAction.lockAcq => true
  | ThreadAction.lockRel => true
  | ThreadAction.atomicRMW => true
  | _ => false

/-- `global_counter++` as the machine executes it: a plain load of the
global followed by a plain store of the incremented value — no lock, no
atomic. -/
def race_condition_accesses : List ThreadAction := [ThreadAction.load, ThreadAction.store]

/-- One action of a thread: `g` is the current value of `global_counter`,
`r` the thread's private register.  A load fills the register; the store of
`global_counter++` writes `register + 1` back. -/
def execAction : ThreadAction → Int → Option Int → Int × Option Int
  | ThreadAction.load, g, _ => (g, some g)
  | ThreadAction.store, g, none => (g, none)
  | ThreadAction.store, _, some v => (v + 1, some v)
  | _, g, r => (g, r)

/-- Run one thread to completion, sequentially. -/
def runOne : List ThreadAction → Option Int → Int → Int
  | [], _, g => g
  | a :: as, r, g =>
    let (g', r') := execAction a g r
    runOne as r' g'

/-- Interleaved execution of two threads over the shared `global_counter`:
`sched` picks, step by step, which thread executes its next action (`true`
for the first thread); a pick of an exhausted thread is a no-op. -/
def runTwo : List Bool → List ThreadAction × Option Int → List ThreadAction × Option Int → Int → Int
  | [], _, _, g => g
  | pick :: rest, t1, t2, g =>
    if pick then
      match t1.1 with
      | [] => runTwo rest t1 t2 g
      | a :: as =>
        let (g', r') := execAction a g t1.2
        runTwo rest (as, r') t2 g'
    else
      match t2.1 with
      | [] => runTwo rest t1 t2 g
      | a :: as =>
        let (g', r') := execAction a g t2.2
        runTwo rest t1 (as, r') g'

/-- `void race_condition() { global_counter++; }`, executed by a single
thread: the unsynchronized load/store pair applied to the state's global. -/
def race_condition (st : MachState) : MachState :=
  { st with global_counter := runOne race_condition_accesses none st.global_counter }

/-- The source files of the repository. -/
def translationUnits : List String := ["src/test_review/bad_cpp.cpp"]

/-- The free functions the translation unit defines, in order. -/
def definedFunctions : List String :=
  ["process_string", "memory_issue", "race_condition", "BAD_FUNCTION_NAME"]

/-- The global variables the translation unit defines. -/
def definedGlobals : List String := ["global_counter"]

/-- The functions each defined function calls, read off its body (all are
library functions). -/
def callees : String → List String
  | "process_string" => ["strcpy"]
  | "memory_issue" => ["malloc"]
  | "race_condition" => []
  | "BAD_FUNCTION_NAME" => ["printf"]
  | _ => []

/-! ### Helper lemmas about the `strcpy` copy loop and the heap. -/

theorem strcpyFrom_length (src : List Char) (i : Nat) :
    (strcpyFrom src i).length = src.length + 1 := by
  induction src generalizing i with
  | nil => rfl
  | cons c cs ih => simp [strcpyFrom, ih]

theorem strcpyFrom_mem_last (src : List Char) (i : Nat) :
    (i + src.length, NUL) ∈ strcpyFrom src i := by
  induction src generalizing i with
  | nil => simp [strcpyFrom]
  | cons c cs ih =>
    simp only [strcpyFrom, List.mem_cons]
    right
    have := ih (i + 1)
    simpa [Nat.add_assoc, Nat.add_comm 1 cs.length] using this

theorem strcpyFrom_mem_bound (src : List Char) (i : Nat) :
    ∀ p ∈ strcpyFrom src i, i ≤ p.1 ∧ p.1 ≤ i + src.length := by
  induction src generalizing i with
  | nil => simp [strcpyFrom]
  | cons c cs ih =>
    intro p hp
    simp only [strcpyFrom, List.mem_cons] at hp
    rcases hp with h | h
    · subst h; simp
    · have := ih (i + 1) p h
      constructor <;> [omega; (simp only [List.length_cons]; omega)]

theorem updateBlock_append_last (xs : List Block) (b : Block) (f : Block → Block) :
    updateBlock (xs ++ [b]) xs.length f = xs ++ [f b] := by
  induction xs with
  | nil => rfl
  | cons x xs ih => simp [updateBlock, ih]

/-! ### Claim theorems. -/

/-- C1: `process_string` copies its caller-supplied NUL-terminated input
into the fixed 10-byte local buffer with no length check: for any input
whose length including the terminating NUL exceeds 10 bytes, some write of
the copy lands at an index past the end of the buffer, and on every input
the copy unconditionally performs all `length + 1` writes — no code path
checks the input length first. -/
theorem claim_C1 (input : List Char) (st : MachState)
    (h : BUFFER_SIZE < input.length + 1) :
    (∃ w ∈ (process_string input st).2, BUFFER_SIZE ≤ w.1) ∧
    ∀ (inp : List Char) (st2 : MachState),
      (process_string inp st2).2.length = inp.length + 1 := by
  refine ⟨⟨(input.length, NUL), ?_, ?_⟩, ?_⟩
  · simpa [process_string, strcpy] using strcpyFrom_mem_last input 0
  · simp only [BUFFER_SIZE] at h ⊢; omega
  · intro inp st2
    simp [process_string, strcpy, strcpyFrom_length]

theorem claim_C1_wit :
    (BUFFER_SIZE < (['a', 'b', 'c', 'd', 'e', 'f', 'g', 'h', 'i', 'j'] : List Char).length + 1) ∧
    ((∃ w ∈ (process_string ['a', 'b', 'c', 'd', 'e', 'f', 'g', 'h', 'i', 'j'] st0).2,
        BUFFER_SIZE ≤ w.1) ∧
      ∀ (inp : List Char) (st2 : MachState),
        (process_string inp st2).2.length = inp.length + 1) :=
  ⟨by decide, claim_C1 ['a', 'b', 'c', 'd', 'e', 'f', 'g', 'h', 'i', 'j'] st0 (by decide)⟩

/-- C9: for every input whose length including the terminating NUL is at
most 10 bytes, every write of `process_string`'s copy stays inside the
10-byte buffer, and the call returns the machine state unchanged (no
observable effect on any non-local state). -/
theorem claim_C9 (input : List Char) (st : MachState)
    (h : input.length + 1 ≤ BUFFER_SIZE) :
    (∀ w ∈ (process_string input st).2, w.1 < BUFFER_SIZE) ∧
    (process_string input st).1 = st := by
  refine ⟨?_, rfl⟩
  intro w hw
  have hb := strcpyFrom_mem_bound input 0 w (by simpa [process_string, strcpy] using hw)
  omega

theorem claim_C9_wit :
    ((['h', 'i'] : List Char).length + 1 ≤ BUFFER_SIZE) ∧
    ((∀ w ∈ (process_string ['h', 'i'] st0).2, w.1 < BUFFER_SIZE) ∧
      (process_string ['h', 'i'] st0).1 = st0) :=
  ⟨by decide, claim_C9 ['h', 'i'] st0 (by decide)⟩

/-- C2: `BAD_FUNCTION_NAME` reads its local `x` (in the condition `x > 0`)
before any value has been assigned to it, on every call: whatever garbage
value `x` holds and whatever the machine state, the trace contains a read
of `x` flagged as unassigned, and contains no assignment to `x` at all. -/
theorem claim_C2 (garbage : Int) (st : MachState) :
    (LocalEvent.read "x" false ∈ (BAD_FUNCTION_NAME garbage st).2) ∧
    ∀ v : Int, LocalEvent.assign "x" v ∉ (BAD_FUNCTION_NAME garbage st).2 := by
  constructor
  · simp [BAD_FUNCTION_NAME]
  · intro v
    by_cases hg : garbage > 0 <;> simp [BAD_FUNCTION_NAME, hg]

/-- C3: `race_condition` mutates the shared counter with no mutual
exclusion: its accesses to `global_counter` are a plain load followed by a
plain store (a read-modify-write) with no lock, atomic, or other
synchronization action anywhere in the sequence; consequently, when two
threads each call `race_condition` concurrently, the interleaving in which
both threads load before either stores loses one increment (final value
`v + 1`), while the serialized schedule yields `v + 2` — the data race. -/
theorem claim_C3 (v : Int) :
    (∀ a ∈ race_condition_accesses, isSyncAction a = false) ∧
    (ThreadAction.load ∈ race_condition_accesses ∧
      ThreadAction.store ∈ race_condition_accesses) ∧
    runTwo [true, false, true, false]
      (race_condition_accesses, none) (race_condition_accesses, none) v = v + 1 ∧
    runTwo [true, true, false, false]
      (race_condition_accesses, none) (race_condition_accesses, none) v = v + 2 := by
  refine ⟨by decide, ⟨by decide, by decide⟩, ?_, ?_⟩
  · simp [runTwo, race_condition_accesses, execAction]
  · simp [runTwo, race_condition_accesses, execAction]
    omega

/-- C6: in a single-threaded execution, one call to `race_condition`
increments the shared counter: from every starting value `v` of
`global_counter` the new value is `v + 1`, and no other component of the
machine state (heap, null-write count) changes. -/
theorem claim_C6 (st : MachState) :
    (race_condition st).global_counter = st.global_counter + 1 ∧
    (race_condition st).heap = st.heap ∧
    (race_condition st).nullWrites = st.nullWrites := by
  refine ⟨?_, rfl, rfl⟩
  simp [race_condition, runOne, race_condition_accesses, execAction]

/-- C4: `memory_issue` performs no allocation-failure check: the store
`ptr[0] = 10` executes on every path (its event appears in the trace for
either outcome of `malloc`), and in the execution where the allocation
fails the store goes through the null pointer, which the state records as a
null-pointer write instead of any detection or report of the failure. -/
theorem claim_C4 (st : MachState) :
    ((memory_issue false st).1.nullWrites = st.nullWrites + 1) ∧
    ∀ ok : Bool, MemEvent.storeCall (!ok) 0 10 ∈ (memory_issue ok st).2 := by
  constructor
  · simp [memory_issue, malloc, storeInt]
  · intro ok
    cases ok <;> simp [memory_issue, malloc, storeInt]

/-- C5: `memory_issue` allocates a heap block of `100 * sizeof(int)` bytes
and never releases it: when the allocation succeeds the function returns
with that block (holding its one store) still on the heap, and no `free`
event occurs in its trace on any code path. -/
theorem claim_C5 (st : MachState) :
    (memory_issue true st).1.heap =
      st.heap ++ [{ bytes := 100 * sizeof_int, written := [(0, 10)] }] ∧
    ∀ ok : Bool, MemEvent.freeCall ∉ (memory_issue ok st).2 := by
  constructor
  · simp [memory_issue, malloc, storeInt, storeAt, updateBlock_append_last]
  · intro ok
    cases ok <;> simp [memory_issue, malloc, storeInt]

/-- C10: whenever the allocation in `memory_issue` succeeds, the freshly
allocated block of `100 * sizeof(int)` bytes receives exactly one store —
the value 10 at index 0 — and no other element of the array is written. -/
theorem claim_C10 (st : MachState) :
    ∃ b : Block, (memory_issue true st).1.heap = st.heap ++ [b] ∧
      b.bytes = 100 * sizeof_int ∧ b.written = [(0, 10)] ∧
      ∀ i v, (i, v) ∈ b.written → i = 0 ∧ v = 10 := by
  refine ⟨{ bytes := 100 * sizeof_int, written := [(0, 10)] }, ?_, rfl, rfl, ?_⟩
  · simp [memory_issue, malloc, storeInt, storeAt, updateBlock_append_last]
  · intro i v hv
    simpa using hv

/-- C7: the translation unit's only global variable is `global_counter`,
and `process_string`, `memory_issue`, and `BAD_FUNCTION_NAME` all leave it
unchanged: from every starting state and for every input the value of
`global_counter` after the call equals its value before. -/
theorem claim_C7 (st : MachState) :
    definedGlobals = ["global_counter"] ∧
    (∀ input : List Char,
      (process_string input st).1.global_counter = st.global_counter) ∧
    (∀ ok : Bool, (memory_issue ok st).1.global_counter = st.global_counter) ∧
    ∀ g : Int, (BAD_FUNCTION_NAME g st).1.global_counter = st.global_counter := by
  refine ⟨rfl, fun _ => rfl, ?_, fun _ => rfl⟩
  intro ok
  cases ok <;> simp [memory_issue, malloc, storeInt]

/-- C8: the repository is one translation unit defining exactly the four
free functions `process_string`, `memory_issue`, `race_condition`,
`BAD_FUNCTION_NAME` (pairwise distinct) and the one global variable
`global_counter`, and no defined function calls any of the others — every
callee is a library function outside the translation unit. -/
theorem claim_C8 :
    translationUnits.length = 1 ∧
    definedFunctions =
      ["process_string", "memory_issue", "race_condition", "BAD_FUNCTION_NAME"] ∧
    definedFunctions.Nodup ∧
    definedGlobals = ["global_counter"] ∧
    ∀ f ∈ definedFunctions, ∀ g ∈ callees f, g ∉ definedFunctions := by
  refine ⟨rfl, rfl, by decide, rfl, by decide⟩
